import Mathlib

/-!
Verification of the leader-tracking and fan-out subsystem of a TPU client
(`rpc/tpu/tpu_client.go`).

Modelling conventions:
* `uint64` slot numbers are modelled as `Nat`.  The source stores slot
  samples as `float64` and converts back with `uint64(...)`; slot numbers
  stay far below `2^53`, where the round-trip is exact, so samples are
  modelled directly as `Nat`.  The one place where `uint64` wrap-around is
  reachable (`LastSlot` on an empty leader list) is modelled with an
  explicit `% 2^64`.
* Go maps with `string` keys and `""` as the zero value of missing entries
  are modelled as total functions `String → String` returning `""` for
  absent keys, matching the source's `leaderTPUCache.LeaderTPUMap[...]`
  lookups.
* Fallible remote queries (`rpc.Client`) and fallible socket operations
  (`net.Dial` / `Conn.Write`) are external collaborators; they are modelled
  as oracle records whose outcomes the theorems quantify over.
* Methods that mutate a receiver are modelled as functions from the old
  state to the new state (and returned value).
-/

/-- `MAX_SLOT_SKIP_DISTANCE` from `tpu_client.go` line 15. -/
def MAX_SLOT_SKIP_DISTANCE : Nat := 48

/-- `DEFAULT_FANOUT_SLOTS` from `tpu_client.go` line 16.  Declared in the
source but never referenced by any other line of the file. -/
def DEFAULT_FANOUT_SLOTS : Nat := 12

/-- `MAX_FANOUT_SLOTS` from `tpu_client.go` line 17. -/
def MAX_FANOUT_SLOTS : Nat := 100

/-- `2^64`, the modulus of Go's `uint64` arithmetic. -/
def UINT64_MOD : Nat := 2 ^ 64

/-!
`RecentLeaderSlots` holds one field `RecentSlots []float64`; samples are
appended at the end, so the state is the sample list in arrival order,
modelled as `List Nat`.
-/

/-- The `for len(...) > 12` eviction loop of `RecordSlot`
(`tpu_client.go` lines 136-138): while more than 12 samples remain, drop
the front (oldest) one.  The loop removes one element per iteration, so
the list length bounds its iteration count; `fuel` is instantiated with
the length to make the recursion structural. -/
def trimLoop : Nat → List Nat → List Nat
  | 0, l => l
  | fuel + 1, l => if 12 < l.length then trimLoop fuel l.tail else l

/-- `RecentLeaderSlots.RecordSlot` (`tpu_client.go` lines 134-139): append
the new sample, then evict from the front while more than 12 samples
remain. -/
def RecordSlot (recentSlots : List Nat) (currentSlot : Nat) : List Nat :=
  trimLoop (recentSlots ++ [currentSlot]).length (recentSlots ++ [currentSlot])

/-- `RecentLeaderSlots.EstimatedCurrentSlot` (`tpu_client.go` lines
141-160), returning the pair (returned value, sample list after the
method's in-place sorts).  `sort.Float64s` sorts the slice ascending in
place; `sort.Sort(sort.Reverse(...))` then sorts it descending in place,
so the slice the method leaves behind is the descending sort, and the
final loop scans that descending slice accumulating the largest sample
not exceeding `maxReasonableCurrentSlot`. -/
def EstimatedCurrentSlot (recentSlots : List Nat) : Nat × List Nat :=
  if recentSlots.length = 0 then (0, recentSlots)
  else
    let sorted := List.insertionSort (· ≤ ·) recentSlots
    let maxIndex := sorted.length - 1
    let medianIndex := maxIndex / 2
    let medianRecentSlot := sorted.getD medianIndex 0
    let expectedCurrentSlot := medianRecentSlot + (maxIndex - medianIndex)
    let maxReasonableCurrentSlot := expectedCurrentSlot + MAX_SLOT_SKIP_DISTANCE
    let descSlots := List.insertionSort (· ≥ ·) sorted
    (descSlots.foldl
      (fun slotToReturn slot =>
        if slot ≤ maxReasonableCurrentSlot ∧ slotToReturn < slot then slot
        else slotToReturn) 0,
      descSlots)

/-- The estimator algorithm as the specification words it (spec §4.1):
sort the samples ascending, take the median at index `⌊(n-1)/2⌋`, let
`expected = median + (n-1-medianIndex)`, `cap = expected +
MAX_SLOT_SKIP_DISTANCE`, and return the maximum sample value `≤ cap`,
or `0` when no sample qualifies. -/
def specEstimatedCurrentSlot (samples : List Nat) : Nat :=
  let sorted := List.insertionSort (· ≤ ·) samples
  let n := samples.length
  let medianIndex := (n - 1) / 2
  let median := sorted.getD medianIndex 0
  let expected := median + (n - 1 - medianIndex)
  let cap := expected + MAX_SLOT_SKIP_DISTANCE
  (samples.filter (· ≤ cap)).foldl max 0

/-!
Leader schedule cache (`LeaderTPUCache`).  The query collaborator
`rpc.Client` lives outside `src/`.
-/

/-- The `GetEpochInfo` reply; only the `SlotsInEpoch` field is read. -/
structure EpochInfo where
  SlotsInEpoch : Nat

/-- One entry of the `GetClusterNodes` reply: a node identity and its
optional TPU address (`contactInfo.TPU` is a nullable pointer in the
source). -/
structure ContactInfo where
  Pubkey : String
  TPU : Option String

/-- Modelled from the spec: the query collaborator `rpc.Client` is not
under `src/`; spec §6 specifies it as a synchronous request/response
interface with `getEpochInfo → {slotsInEpoch}`, `getSlotLeaders(startSlot,
count) → ordered list of leader identities` and `getClusterNodes → list of
{identity, optional network address}`, each of which may fail.  Each query
is modelled as an oracle field returning `Except` an error message.
Leader identities are the base-58 strings `solana.PublicKey.String()`
produces. -/
structure RpcClient where
  getEpochInfo : Except String EpochInfo
  getSlotLeaders : Nat → Nat → Except String (List String)
  getClusterNodes : Except String (List ContactInfo)

/-- The `LeaderTPUCache` struct (`tpu_client.go` lines 19-26) without its
`Connection` field (the oracle is passed explicitly) and without
`LastEpochInfoSlot` (written nowhere in the source). -/
structure LeaderTPUCache where
  LeaderTPUMap : String → String
  FirstSlot : Nat
  SlotsInEpoch : Nat
  Leaders : List String

/-- The zero value `LeaderTPUCache{}` a fresh cache starts from
(`tpu_client.go` line 180): all fields at their Go zero values. -/
def LeaderTPUCache.empty : LeaderTPUCache :=
  { LeaderTPUMap := fun _ => "", FirstSlot := 0, SlotsInEpoch := 0, Leaders := [] }

/-- `LeaderTPUCache.FetchSlotLeaders` (`tpu_client.go` lines 48-55):
request `min(2*MAX_FANOUT_SLOTS, slotsInEpoch)` slot leaders starting at
`startSlot`. -/
def FetchSlotLeaders (conn : RpcClient) (startSlot slotsInEpoch : Nat) :
    Except String (List String) :=
  let fanout := min (2 * MAX_FANOUT_SLOTS) slotsInEpoch
  conn.getSlotLeaders startSlot fanout

/-- `LeaderTPUCache.FetchClusterTPUSockets` (`tpu_client.go` lines 57-69):
build the identity → TPU-address map from the cluster-nodes reply,
omitting nodes with no TPU address.  The Go map is modelled as a total
function defaulting to `""`; later entries overwrite earlier ones, as Go
map assignment does. -/
def FetchClusterTPUSockets (conn : RpcClient) : Except String (String → String) :=
  match conn.getClusterNodes with
  | .error e => .error e
  | .ok clusterNodes =>
    .ok (clusterNodes.foldl
      (fun m contactInfo =>
        match contactInfo.TPU with
        | some tpu => fun k => if k = contactInfo.Pubkey then tpu else m k
        | none => m)
      (fun _ => ""))

/-- `LeaderTPUCache.Load` (`tpu_client.go` lines 28-46): fetch epoch info,
then the slot leaders for `startSlot`, then the cluster TPU sockets,
storing each in turn and propagating the first error.  Note the source
never assigns `FirstSlot` here. -/
def LeaderTPUCache.Load (cache : LeaderTPUCache) (conn : RpcClient) (startSlot : Nat) :
    Except String LeaderTPUCache :=
  match conn.getEpochInfo with
  | .error e => .error e
  | .ok epochInfo =>
    let cache1 := { cache with SlotsInEpoch := epochInfo.SlotsInEpoch }
    match FetchSlotLeaders conn startSlot cache1.SlotsInEpoch with
    | .error e => .error e
    | .ok slotLeaders =>
      let cache2 := { cache1 with Leaders := slotLeaders }
      match FetchClusterTPUSockets conn with
      | .error e => .error e
      | .ok clusterTPUSockets =>
        .ok { cache2 with LeaderTPUMap := clusterTPUSockets }

/-- `LeaderTPUCache.LastSlot` (`tpu_client.go` lines 71-73):
`FirstSlot + uint64(len(Leaders)) - 1` in `uint64` arithmetic.  Adding
`2^64 - 1` and reducing mod `2^64` is the same as subtracting 1 with
wrap-around, which is reachable when the leader list is empty. -/
def LeaderTPUCache.LastSlot (cache : LeaderTPUCache) : Nat :=
  (cache.FirstSlot + cache.Leaders.length + (UINT64_MOD - 1)) % UINT64_MOD

/-- Modelled from the spec: `CheckIfDuplicate` is called by
`GetLeaderSockets` but defined outside `src/`; spec §4.2 says the walk
"deduplicates by leader identity", so it tests whether the identity is
already in the already-checked list. -/
def CheckIfDuplicate (alreadyCheckedLeaders : List String) (leader : String) : Bool :=
  decide (leader ∈ alreadyCheckedLeaders)

/-- The loop body of `LeaderTPUCache.GetLeaderSockets` (`tpu_client.go`
lines 87-100), with the leaders still to visit and the three loop
variables (`alreadyCheckedLeaders`, `leaderTPUSockets`, `checkedSlots`)
made explicit.  Each iteration resolves the leader's TPU socket, appends
socket and identity when the socket is known and the identity is new,
increments `checkedSlots`, and returns early when the incremented counter
equals `fanoutSlots`. -/
def GetLeaderSocketsLoop (tpuMap : String → String) (fanoutSlots : Nat) :
    List String → List String → List String → Nat → List String
  | [], _, leaderTPUSockets, _ => leaderTPUSockets
  | leader :: rest, alreadyCheckedLeaders, leaderTPUSockets, checkedSlots =>
    let tpuSocket := tpuMap leader
    let next :=
      if tpuSocket ≠ "" then
        if CheckIfDuplicate alreadyCheckedLeaders leader then
          (alreadyCheckedLeaders, leaderTPUSockets)
        else
          (alreadyCheckedLeaders ++ [leader], leaderTPUSockets ++ [tpuSocket])
      else (alreadyCheckedLeaders, leaderTPUSockets)
    if checkedSlots + 1 = fanoutSlots then next.2
    else GetLeaderSocketsLoop tpuMap fanoutSlots rest next.1 next.2 (checkedSlots + 1)

/-- `LeaderTPUCache.GetLeaderSockets` (`tpu_client.go` lines 83-102),
taking the leader list and TPU map as the fields of the receiver it
reads. -/
def GetLeaderSockets (leaders : List String) (tpuMap : String → String)
    (fanoutSlots : Nat) : List String :=
  GetLeaderSocketsLoop tpuMap fanoutSlots leaders [] [] 0

/-- Specification-side description of the fan-out walk (spec §4.2): the
leader identities kept, in first-seen order, skipping identities whose
address is unknown and identities already seen. -/
def pickLeaders : List String → (String → String) → List String → List String
  | [], _, _ => []
  | leader :: rest, m, seen =>
    if m leader ≠ "" ∧ leader ∉ seen then
      leader :: pickLeaders rest m (seen ++ [leader])
    else pickLeaders rest m seen

/-- Specification-side resolved address list: the addresses of the picked
leaders, in order (spec §4.2). -/
def dedupResolve (leaders : List String) (m : String → String) : List String :=
  (pickLeaders leaders m []).map m

/-!
Fan-out sender (`TPUClient.SendRawTransaction`).  The network is the
oracle here: for each resolved destination address, `dial k` is the
outcome of the `net.Dial` attempt number `k` (`none` = connection
established, `some e` = error with text `e`), and `write i` is the
outcome of the `i`-th `connection.Write` of the payload on the
established connection.
-/

/-- Outcomes the network would give for one destination address. -/
structure AddrBehavior where
  dial : Nat → Option String
  write : Nat → Option String

/-- The dial-retry loop of `SendRawTransaction` (`tpu_client.go` lines
307-324) for one destination, unrolled: the loop dials, and on failure
stores the error text and retries while `connectionTries < 3`,
incrementing the counter each time, so attempts `0,1,2,3` are made and
the fourth failure gives up.  Returns (connection established?, the
`lastError` value after the loop), threading the caller's current
`lastError`. -/
def tryDial (b : AddrBehavior) (lastError : String) : Bool × String :=
  match b.dial 0 with
  | none => (true, lastError)
  | some e0 =>
    match b.dial 1 with
    | none => (true, e0)
    | some e1 =>
      match b.dial 2 with
      | none => (true, e1)
      | some e2 =>
        match b.dial 3 with
        | none => (true, e2)
        | some e3 => (false, e3)

/-- The write loop of `SendRawTransaction` (`tpu_client.go` lines
328-335): write the payload `amount` times, counting successes and
recording the text of each failure, threading (successes, lastError). -/
def writeLoop (b : AddrBehavior) (amount : Nat) (acc : Nat × String) : Nat × String :=
  (List.range amount).foldl
    (fun acc i =>
      match b.write i with
      | some e => (acc.1, e)
      | none => (acc.1 + 1, acc.2))
    acc

/-- `TPUClient.SendRawTransaction` (`tpu_client.go` lines 302-343) given
the already-resolved destination list: for each destination, dial with
retry; on dial failure skip the destination; otherwise run the write
loop; finally return an error carrying `lastError` when no write
succeeded anywhere, and success otherwise. -/
def SendRawTransaction (leaderTPUSockets : List AddrBehavior) (amount : Nat) :
    Except String Unit :=
  let final := leaderTPUSockets.foldl
    (fun acc b =>
      let dialResult := tryDial b acc.2
      if dialResult.1 then writeLoop b amount (acc.1, dialResult.2)
      else (acc.1, dialResult.2))
    (0, "")
  if final.1 = 0 then .error final.2 else .ok ()

/-- Whether the dial-retry loop establishes a connection for this
destination (independent of the threaded `lastError`). -/
def connects (b : AddrBehavior) : Bool := (tryDial b "").1

/-- The dial error texts recorded for one destination, in the order the
loop records them: one per failed attempt, stopping at the first success
or after attempt 3. -/
def dialErrors (b : AddrBehavior) : List String :=
  match b.dial 0 with
  | none => []
  | some e0 =>
    match b.dial 1 with
    | none => [e0]
    | some e1 =>
      match b.dial 2 with
      | none => [e0, e1]
      | some e2 =>
        match b.dial 3 with
        | none => [e0, e1, e2]
        | some e3 => [e0, e1, e2, e3]

/-- The write error texts recorded for one destination, in write order. -/
def writeErrors (b : AddrBehavior) (amount : Nat) : List String :=
  (List.range amount).filterMap b.write

/-- Specification-side list of every error text `SendRawTransaction`
records, in recording order: for each destination its dial errors, then —
only if the connection was established — its write errors (spec §4.5:
"recording the last error text", "surfacing the last recorded error
text"). -/
def recordedErrors (addrs : List AddrBehavior) (amount : Nat) : List String :=
  addrs.flatMap (fun b => dialErrors b ++ if connects b then writeErrors b amount else [])

/-- How many of this destination's `amount` writes succeed. -/
def successfulWrites (b : AddrBehavior) (amount : Nat) : Nat :=
  (List.range amount).countP (fun i => (b.write i).isNone)

/-- Total successful writes across all destinations (the final value of
the source's `successes` counter). -/
def totalSuccesses (addrs : List AddrBehavior) (amount : Nat) : Nat :=
  (addrs.map (fun b => if connects b then successfulWrites b amount else 0)).sum

/-!
Top-level client configuration.
-/

/-- `TPUClientConfig` (`tpu_client.go` lines 254-256). -/
structure TPUClientConfig where
  FanoutSlots : Nat

/-- The fan-out clamp of `TPUClient.Load` (`tpu_client.go` line 267):
`uint64(math.Max(math.Min(float64(config.FanoutSlots),
float64(MAX_FANOUT_SLOTS)), 1))`. -/
def computeFanoutSlots (config : TPUClientConfig) : Nat :=
  max (min config.FanoutSlots MAX_FANOUT_SLOTS) 1

/-!
Concrete instances used by examples, witnesses and counterexamples.
-/

/-- Topology of the spec §8 example: leaders `A`, `B` resolve to
`addr1`, `addr2`; everything else is unknown. -/
def exampleTPUMap : String → String :=
  fun s => if s = "A" then "addr1" else if s = "B" then "addr2" else ""

/-- A query collaborator whose calls all succeed: 5 slots per epoch and a
leader list of exactly the requested length. -/
def rpcAnchorExample : RpcClient :=
  { getEpochInfo := .ok ⟨5⟩
  , getSlotLeaders := fun _ count => .ok (List.replicate count "L1")
  , getClusterNodes := .ok [] }

/-- A destination whose first dial attempt fails with text `dial refused`
and whose retry succeeds; every write succeeds. -/
def addrRetryThenOk : AddrBehavior :=
  { dial := fun k => if k = 0 then some "dial refused" else none
  , write := fun _ => none }

/-- A destination that connects immediately and accepts every write. -/
def addrAllOk : AddrBehavior :=
  { dial := fun _ => none, write := fun _ => none }

/-!
Helper lemmas about the estimator's final accumulation loop.
-/

/-- The source's accumulation loop (keep `slot` when `slot ≤ cap` and
`slot` beats the accumulator) computes a running maximum of the samples
not exceeding `cap`. -/
theorem foldl_pick_eq_filter_max (cap : Nat) :
    ∀ (L : List Nat) (acc : Nat),
      L.foldl (fun acc2 slot => if slot ≤ cap ∧ acc2 < slot then slot else acc2) acc =
        (L.filter (fun slot => slot ≤ cap)).foldl max acc := by
  intro L
  induction L with
  | nil => intro _; rfl
  | cons s L ih =>
    intro acc
    simp only [List.foldl_cons, List.filter_cons]
    by_cases hs : s ≤ cap
    · have h1 : (if s ≤ cap ∧ acc < s then s else acc) = max acc s := by
        by_cases h2 : acc < s
        · simp [hs, h2, Nat.max_eq_right (Nat.le_of_lt h2)]
        · simp [hs, h2, Nat.max_eq_left (Nat.le_of_not_lt h2)]
      rw [h1, ih]
      simp [hs]
    · have h1 : (if s ≤ cap ∧ acc < s then s else acc) = acc := by simp [hs]
      rw [h1, ih]
      simp [hs]

/-- The accumulation loop either leaves its accumulator unchanged or
returns an element of the scanned list. -/
theorem foldl_pick_acc_or_mem (cap : Nat) :
    ∀ (L : List Nat) (acc : Nat),
      L.foldl (fun acc2 slot => if slot ≤ cap ∧ acc2 < slot then slot else acc2) acc = acc ∨
        L.foldl (fun acc2 slot => if slot ≤ cap ∧ acc2 < slot then slot else acc2) acc ∈ L := by
  intro L
  induction L with
  | nil => intro _; left; rfl
  | cons s L ih =>
    intro acc
    simp only [List.foldl_cons]
    rcases ih (if s ≤ cap ∧ acc < s then s else acc) with h | h
    · rw [h]
      by_cases hc : s ≤ cap ∧ acc < s
      · right; simp [hc]
      · left; simp [hc]
    · right; exact List.mem_cons_of_mem _ h

/-- The sample list the estimator leaves behind is the descending sort of
the original samples. -/
theorem estimatedCurrentSlot_snd (l : List Nat) (hne : ¬l.length = 0) :
    (EstimatedCurrentSlot l).2 =
      List.insertionSort (· ≥ ·) (List.insertionSort (· ≤ ·) l) := by
  unfold EstimatedCurrentSlot
  rw [if_neg hne]

/-- Claim C1: for every non-empty sample window, `EstimatedCurrentSlot`
returns exactly what the specified algorithm prescribes (sort ascending,
median at `⌊(n-1)/2⌋`, `expected = median + (n-1-medianIndex)`,
`cap = expected + MAX_SLOT_SKIP_DISTANCE`, maximum sample `≤ cap` or 0),
and on the samples `[100, 102, 101, 1000]` it returns 102. -/
theorem estimatedCurrentSlot_follows_spec (l : List Nat) (h : l ≠ []) :
    (EstimatedCurrentSlot l).1 = specEstimatedCurrentSlot l ∧
    (EstimatedCurrentSlot [100, 102, 101, 1000]).1 = 102 := by
  constructor
  · have hne : ¬l.length = 0 := by simpa [List.length_eq_zero] using h
    unfold EstimatedCurrentSlot specEstimatedCurrentSlot
    rw [if_neg hne]
    simp only [List.length_insertionSort]
    rw [foldl_pick_eq_filter_max]
    have hperm : (List.insertionSort (· ≥ ·) (List.insertionSort (· ≤ ·) l)).Perm l :=
      (List.perm_insertionSort _ _).trans (List.perm_insertionSort _ _)
    exact (hperm.filter _).foldl_eq 0
  · decide

/-- Witness for `estimatedCurrentSlot_follows_spec` at the sample window
`[100, 102, 101, 1000]`. -/
theorem estimatedCurrentSlot_follows_spec_witness :
    (EstimatedCurrentSlot [100, 102, 101, 1000]).1 =
      specEstimatedCurrentSlot [100, 102, 101, 1000] :=
  (estimatedCurrentSlot_follows_spec [100, 102, 101, 1000] (by decide)).1

/-- Claim C6: the estimator only ever returns an observed sample or 0,
and on the empty sample window it returns 0. -/
theorem estimatedCurrentSlot_mem_or_zero (l : List Nat) :
    ((EstimatedCurrentSlot l).1 = 0 ∨ (EstimatedCurrentSlot l).1 ∈ l) ∧
    (EstimatedCurrentSlot ([] : List Nat)).1 = 0 := by
  refine ⟨?_, rfl⟩
  by_cases hne : l.length = 0
  · left
    unfold EstimatedCurrentSlot
    rw [if_pos hne]
  · unfold EstimatedCurrentSlot
    rw [if_neg hne]
    have hperm : (List.insertionSort (· ≥ ·) (List.insertionSort (· ≤ ·) l)).Perm l :=
      (List.perm_insertionSort _ _).trans (List.perm_insertionSort _ _)
    rcases foldl_pick_acc_or_mem _ (List.insertionSort (· ≥ ·)
        (List.insertionSort (· ≤ ·) l)) 0 with h | h
    · left; exact h
    · right; exact hperm.mem_iff.mp h

/-!
FIFO sample-window lemmas.
-/

/-- The eviction loop drops exactly the prefix that exceeds the 12-sample
capacity, given enough fuel. -/
theorem trimLoop_eq_drop : ∀ (fuel : Nat) (l : List Nat), l.length ≤ 12 + fuel →
    trimLoop fuel l = l.drop (l.length - 12) := by
  intro fuel
  induction fuel with
  | zero =>
    intro l hl
    have h0 : l.length - 12 = 0 := by omega
    rw [h0]
    rfl
  | succ fuel ih =>
    intro l hl
    unfold trimLoop
    by_cases h12 : 12 < l.length
    · rw [if_pos h12, ih l.tail (by rw [List.length_tail]; omega)]
      rw [List.length_tail, ← List.drop_one, List.drop_drop]
      congr 1
      omega
    · rw [if_neg h12]
      have h0 : l.length - 12 = 0 := by omega
      rw [h0, List.drop_zero]

/-- `RecordSlot` appends the sample and keeps the freshest 12, in
arrival order. -/
theorem recordSlot_eq_drop (l : List Nat) (s : Nat) :
    RecordSlot l s = (l ++ [s]).drop ((l.length + 1) - 12) := by
  unfold RecordSlot
  rw [trimLoop_eq_drop _ _ (by omega)]
  simp [List.length_append]

/-- Claim C7: across any non-empty sequence of `RecordSlot` calls the
window holds at most 12 samples, and what it holds is exactly the suffix
of the most recently added samples, in arrival order (FIFO eviction). -/
theorem recordSlot_fifo_capacity (init samples : List Nat) (h : samples ≠ []) :
    (samples.foldl RecordSlot init).length ≤ 12 ∧
    samples.foldl RecordSlot init =
      (init ++ samples).drop ((init ++ samples).length - 12) := by
  have key : ∀ (xs acc : List Nat), xs ≠ [] →
      xs.foldl RecordSlot acc = (acc ++ xs).drop ((acc ++ xs).length - 12) := by
    intro xs
    induction xs with
    | nil => intro acc hx; exact absurd rfl hx
    | cons x xs ih =>
      intro acc _
      by_cases hxs : xs = []
      · subst hxs
        simp only [List.foldl_cons, List.foldl_nil]
        rw [recordSlot_eq_drop]
        simp [List.length_append]
      · simp only [List.foldl_cons]
        rw [ih _ hxs, recordSlot_eq_drop]
        have hsplit : acc ++ x :: xs = (acc ++ [x]) ++ xs := by simp
        rw [hsplit]
        rw [← List.drop_append_of_le_length (by simp [List.length_append]; omega)]
        rw [List.drop_drop]
        congr 1
        simp only [List.length_drop, List.length_append, List.length_cons,
          List.length_nil]
        omega
  refine ⟨?_, key samples init h⟩
  rw [key samples init h, List.length_drop]
  omega

/-- Witness for `recordSlot_fifo_capacity`: recording the 13 samples
`0..12` into an empty window retains the last 12 of them. -/
theorem recordSlot_fifo_capacity_witness :
    (List.foldl RecordSlot [] [0, 1, 2, 3, 4, 5, 6, 7, 8, 9, 10, 11, 12]).length ≤ 12 ∧
    List.foldl RecordSlot [] [0, 1, 2, 3, 4, 5, 6, 7, 8, 9, 10, 11, 12] =
      (([] : List Nat) ++ [0, 1, 2, 3, 4, 5, 6, 7, 8, 9, 10, 11, 12]).drop
        ((([] : List Nat) ++ [0, 1, 2, 3, 4, 5, 6, 7, 8, 9, 10, 11, 12]).length - 12) :=
  recordSlot_fifo_capacity [] [0, 1, 2, 3, 4, 5, 6, 7, 8, 9, 10, 11, 12] (by decide)

/-- Claim C8: `EstimatedCurrentSlot` is not read-only — it leaves the
retained sample sequence sorted in descending slot order (a permutation
of what was there), so on a full 12-sample window a subsequent
`RecordSlot` evicts the front of that descending order, which is the
numerically largest remaining sample rather than the oldest-arrived
one. -/
theorem estimatedCurrentSlot_sorts_window_desc (l : List Nat) (s : Nat) (h : l ≠ []) :
    List.Sorted (· ≥ ·) (EstimatedCurrentSlot l).2 ∧
    (EstimatedCurrentSlot l).2.Perm l ∧
    (l.length = 12 →
      RecordSlot (EstimatedCurrentSlot l).2 s = (EstimatedCurrentSlot l).2.tail ++ [s] ∧
      (EstimatedCurrentSlot l).2.headD 0 ∈ l ∧
      ∀ x ∈ l, x ≤ (EstimatedCurrentSlot l).2.headD 0) := by
  have hne : ¬l.length = 0 := by simpa [List.length_eq_zero] using h
  rw [estimatedCurrentSlot_snd l hne]
  set D := List.insertionSort (· ≥ ·) (List.insertionSort (· ≤ ·) l) with hD
  have hsorted : List.Sorted (· ≥ ·) D := List.sorted_insertionSort _ _
  have hperm : D.Perm l :=
    (List.perm_insertionSort _ _).trans (List.perm_insertionSort _ _)
  refine ⟨hsorted, hperm, ?_⟩
  intro h12
  have hDlen : D.length = 12 := by rw [hperm.length_eq, h12]
  have hDne : D ≠ [] := by
    intro hnil
    rw [hnil] at hDlen
    exact absurd hDlen (by decide)
  constructor
  · rw [recordSlot_eq_drop, hDlen]
    have h1 : (12 + 1) - 12 = 1 := by omega
    rw [h1, List.drop_one, List.tail_append_of_ne_nil hDne]
  · obtain ⟨d0, rest, hcons⟩ : ∃ d0 rest, D = d0 :: rest := by
      cases hx : D with
      | nil => exact absurd hx hDne
      | cons a t => exact ⟨a, t, rfl⟩
    rw [hcons]
    simp only [List.headD_cons]
    constructor
    · exact hperm.mem_iff.mp (by rw [hcons]; exact List.mem_cons_self d0 rest)
    · intro x hx
      have hxD : x ∈ d0 :: rest := by
        rw [← hcons]
        exact hperm.mem_iff.mpr hx
      rcases List.mem_cons.mp hxD with hx0 | hxrest
      · exact Nat.le_of_eq hx0
      · have := List.rel_of_pairwise_cons (hcons ▸ hsorted) hxrest
        exact this

/-- Witness for `estimatedCurrentSlot_sorts_window_desc` on a concrete
full window of 12 samples. -/
theorem estimatedCurrentSlot_sorts_window_desc_witness :
    List.Sorted (· ≥ ·) (EstimatedCurrentSlot [5, 3, 9, 1, 8, 2, 7, 4, 6, 12, 10, 11]).2 ∧
    (EstimatedCurrentSlot [5, 3, 9, 1, 8, 2, 7, 4, 6, 12, 10, 11]).2.Perm
      [5, 3, 9, 1, 8, 2, 7, 4, 6, 12, 10, 11] ∧
    ([5, 3, 9, 1, 8, 2, 7, 4, 6, 12, 10, 11].length = 12 →
      RecordSlot (EstimatedCurrentSlot [5, 3, 9, 1, 8, 2, 7, 4, 6, 12, 10, 11]).2 7 =
        (EstimatedCurrentSlot [5, 3, 9, 1, 8, 2, 7, 4, 6, 12, 10, 11]).2.tail ++ [7] ∧
      (EstimatedCurrentSlot [5, 3, 9, 1, 8, 2, 7, 4, 6, 12, 10, 11]).2.headD 0 ∈
        [5, 3, 9, 1, 8, 2, 7, 4, 6, 12, 10, 11] ∧
      ∀ x ∈ [5, 3, 9, 1, 8, 2, 7, 4, 6, 12, 10, 11],
        x ≤ (EstimatedCurrentSlot [5, 3, 9, 1, 8, 2, 7, 4, 6, 12, 10, 11]).2.headD 0) :=
  estimatedCurrentSlot_sorts_window_desc [5, 3, 9, 1, 8, 2, 7, 4, 6, 12, 10, 11] 7
    (by decide)

/-!
Fan-out walk lemmas.
-/

/-- Invariant of the `GetLeaderSockets` loop: with `c` slots already
scanned, the loop appends to `leaderTPUSockets` the addresses of the
leaders picked (dedup against `checked`) from the next `k - c` positions
of the remaining sequence — from all of it when `fanoutSlots` is 0,
because the counter is compared for equality only after being
incremented and so never equals 0. -/
theorem getLeaderSocketsLoop_spec (m : String → String) (k : Nat) :
    ∀ (rest checked out : List String) (c : Nat), k = 0 ∨ c < k →
      GetLeaderSocketsLoop m k rest checked out c =
        out ++ (pickLeaders (if k = 0 then rest else rest.take (k - c)) m checked).map m := by
  intro rest
  induction rest with
  | nil =>
    intro checked out c _
    by_cases hk0 : k = 0 <;> simp [GetLeaderSocketsLoop, pickLeaders, hk0]
  | cons leader rest ih =>
    intro checked out c hc
    by_cases hstop : c + 1 = k
    · have hk0 : ¬k = 0 := by omega
      have hkc : k - c = 1 := by omega
      simp only [GetLeaderSocketsLoop, if_pos hstop, if_neg hk0, hkc,
        List.take_succ_cons, List.take_zero]
      by_cases hsock : m leader ≠ ""
      · by_cases hdup : leader ∈ checked
        · simp [pickLeaders, hsock, hdup, CheckIfDuplicate]
        · simp [pickLeaders, hsock, hdup, CheckIfDuplicate]
      · simp [pickLeaders, hsock, CheckIfDuplicate]
    · have hnext : k = 0 ∨ c + 1 < k := by omega
      by_cases hsock : m leader ≠ ""
      · by_cases hdup : leader ∈ checked
        · simp only [GetLeaderSocketsLoop, CheckIfDuplicate, if_neg hstop]
          simp only [if_pos hsock, decide_eq_true_eq, hdup, if_true]
          rw [ih _ _ _ hnext]
          by_cases hk0 : k = 0
          · subst hk0
            simp [pickLeaders, hsock, hdup]
          · have hsucc : k - c = (k - (c + 1)) + 1 := by omega
            simp only [if_neg hk0, hsucc, List.take_succ_cons]
            simp [pickLeaders, hsock, hdup]
        · simp only [GetLeaderSocketsLoop, CheckIfDuplicate, if_neg hstop]
          simp only [if_pos hsock, decide_eq_true_eq, hdup, if_false]
          rw [ih _ _ _ hnext]
          by_cases hk0 : k = 0
          · subst hk0
            simp [pickLeaders, hsock, hdup]
          · have hsucc : k - c = (k - (c + 1)) + 1 := by omega
            simp only [if_neg hk0, hsucc, List.take_succ_cons]
            simp [pickLeaders, hsock, hdup]
      · simp only [GetLeaderSocketsLoop, if_neg hstop, if_neg hsock]
        rw [ih _ _ _ hnext]
        by_cases hk0 : k = 0
        · subst hk0
          simp [pickLeaders, hsock]
        · have hsucc : k - c = (k - (c + 1)) + 1 := by omega
          simp only [if_neg hk0, hsucc, List.take_succ_cons]
          simp [pickLeaders, hsock]

/-- The picked leader identities never repeat and avoid the seed list. -/
theorem pickLeaders_nodup (m : String → String) :
    ∀ (L seen : List String),
      (pickLeaders L m seen).Nodup ∧ ∀ x ∈ pickLeaders L m seen, x ∉ seen := by
  intro L
  induction L with
  | nil =>
    intro seen
    refine ⟨List.nodup_nil, ?_⟩
    intro x hx
    cases hx
  | cons leader L ih =>
    intro seen
    by_cases hcond : m leader ≠ "" ∧ leader ∉ seen
    · simp only [pickLeaders, if_pos hcond]
      obtain ⟨ihnd, ihmem⟩ := ih (seen ++ [leader])
      constructor
      · refine List.nodup_cons.mpr ⟨?_, ihnd⟩
        intro hmem
        exact (ihmem leader hmem) (by simp)
      · intro x hx
        rcases List.mem_cons.mp hx with rfl | hxL
        · exact hcond.2
        · intro hxseen
          exact (ihmem x hxL) (by simp [hxseen])
    · simp only [pickLeaders, if_neg hcond]
      obtain ⟨ihnd, ihmem⟩ := ih seen
      exact ⟨ihnd, ihmem⟩

/-- Claim C3: for fan-out `k ≥ 1`, `GetLeaderSockets` walks exactly the
first `k` sequence positions, skipping leaders with no known address and
deduplicating by leader identity in first-seen order (so no identity is
kept twice and the result can be shorter than `k`); on leaders
`[A, A, B]` with `k = 3` and addresses `A ↦ addr1`, `B ↦ addr2` it
returns `[addr1, addr2]`. -/
theorem getLeaderSockets_dedup_takeScan (leaders : List String) (m : String → String)
    (k : Nat) (hk : 1 ≤ k) :
    GetLeaderSockets leaders m k = (pickLeaders (leaders.take k) m []).map m ∧
    (pickLeaders (leaders.take k) m []).Nodup ∧
    GetLeaderSockets ["A", "A", "B"] exampleTPUMap 3 = ["addr1", "addr2"] := by
  refine ⟨?_, (pickLeaders_nodup m _ []).1, ?_⟩
  · unfold GetLeaderSockets
    rw [getLeaderSocketsLoop_spec m k leaders [] [] 0 (Or.inr (by omega))]
    rw [if_neg (by omega : ¬k = 0)]
    simp
  · decide

/-- Witness for `getLeaderSockets_dedup_takeScan` at the spec §8
example. -/
theorem getLeaderSockets_dedup_takeScan_witness :
    GetLeaderSockets ["A", "A", "B"] exampleTPUMap 3 =
      (pickLeaders (["A", "A", "B"].take 3) exampleTPUMap []).map exampleTPUMap :=
  (getLeaderSockets_dedup_takeScan ["A", "A", "B"] exampleTPUMap 3 (by decide)).1

/-- Claim C10: with `fanoutSlots = 0` the walk never stops early — the
counter is incremented before the equality test, so it never equals 0 —
and the whole leader sequence is scanned, returning every resolvable
deduplicated leader address; e.g. on `[A, A, B]` it returns both
addresses rather than none. -/
theorem getLeaderSockets_zero_fanout_scans_all (leaders : List String)
    (m : String → String) :
    GetLeaderSockets leaders m 0 = (pickLeaders leaders m []).map m ∧
    GetLeaderSockets ["A", "A", "B"] exampleTPUMap 0 = ["addr1", "addr2"] := by
  constructor
  · unfold GetLeaderSockets
    rw [getLeaderSocketsLoop_spec m 0 leaders [] [] 0 (Or.inl rfl)]
    simp
  · decide

/-!
Leader cache `Load` theorems.
-/

/-- Counterexample for claim C2: with every query succeeding (5 slots in
the epoch, so a 5-leader window), loading a fresh cache with anchor slot
100 leaves `FirstSlot` at its prior value 0 — the source never assigns it
in `Load` — so `LastSlot` is `0 + 5 - 1 = 4`, not `100 + 5 - 1`. -/
theorem load_not_anchored_counterexample :
    ∃ cache, LeaderTPUCache.Load LeaderTPUCache.empty rpcAnchorExample 100 = .ok cache ∧
      cache.Leaders.length = 5 ∧ cache.FirstSlot = 0 ∧ cache.LastSlot = 4 ∧
      cache.LastSlot ≠ 100 + 5 - 1 := by
  refine ⟨{ LeaderTPUMap := fun _ => "", FirstSlot := 0, SlotsInEpoch := 5,
            Leaders := List.replicate 5 "L1" }, rfl, by decide, rfl, ?_, ?_⟩
  · show (0 + 5 + (UINT64_MOD - 1)) % UINT64_MOD = 4
    have h64 : UINT64_MOD = 18446744073709551616 := by norm_num [UINT64_MOD]
    rw [h64]
  · show (0 + 5 + (UINT64_MOD - 1)) % UINT64_MOD ≠ 100 + 5 - 1
    have h64 : UINT64_MOD = 18446744073709551616 := by norm_num [UINT64_MOD]
    rw [h64]
    decide

/-- In `uint64` arithmetic, `fs + len - 1` does not wrap when
`1 ≤ len` and `fs + len` is in range. -/
theorem lastSlot_mod_of_bounds (fs len : Nat) (h1 : 1 ≤ len)
    (h2 : fs + len < UINT64_MOD) :
    (fs + len + (UINT64_MOD - 1)) % UINT64_MOD = fs + len - 1 := by
  have h64 : UINT64_MOD = 18446744073709551616 := by norm_num [UINT64_MOD]
  rw [h64] at h2 ⊢
  omega

/-- Claim C2 (amended): after a successful `Load(anchorSlot)` the leader
window has length `min(2*MAX_FANOUT_SLOTS, slotsInEpoch)` (granted the
collaborator returns the requested number of leaders), but `FirstSlot` is
left unchanged — `Load` does not anchor the window at `anchorSlot` — so
`LastSlot` is `FirstSlot + length - 1` for the old `FirstSlot`; and
`Load` fails, propagating the underlying query error, whenever the
epoch-info, leader-sequence, or topology fetch fails. -/
theorem load_window_length_and_error_propagation
    (cache : LeaderTPUCache) (conn : RpcClient) (startSlot : Nat)
    (hlen : ∀ s c l, conn.getSlotLeaders s c = .ok l → l.length = c) :
    (∀ c, cache.Load conn startSlot = .ok c →
        c.Leaders.length = min (2 * MAX_FANOUT_SLOTS) c.SlotsInEpoch ∧
        c.FirstSlot = cache.FirstSlot ∧
        (1 ≤ c.Leaders.length → cache.FirstSlot + c.Leaders.length < UINT64_MOD →
          c.LastSlot = cache.FirstSlot + c.Leaders.length - 1)) ∧
    (∀ e, conn.getEpochInfo = .error e → cache.Load conn startSlot = .error e) ∧
    (∀ e info, conn.getEpochInfo = .ok info →
        conn.getSlotLeaders startSlot (min (2 * MAX_FANOUT_SLOTS) info.SlotsInEpoch) =
          .error e →
        cache.Load conn startSlot = .error e) ∧
    (∀ e info ll, conn.getEpochInfo = .ok info →
        conn.getSlotLeaders startSlot (min (2 * MAX_FANOUT_SLOTS) info.SlotsInEpoch) =
          .ok ll →
        conn.getClusterNodes = .error e →
        cache.Load conn startSlot = .error e) := by
  have h64 : UINT64_MOD = 18446744073709551616 := by norm_num [UINT64_MOD]
  refine ⟨?_, ?_, ?_, ?_⟩
  · intro c hok
    unfold LeaderTPUCache.Load FetchSlotLeaders FetchClusterTPUSockets at hok
    cases h1 : conn.getEpochInfo with
    | error e => rw [h1] at hok; exact absurd hok (by simp)
    | ok info =>
      rw [h1] at hok
      dsimp only at hok
      cases h2 : conn.getSlotLeaders startSlot (min (2 * MAX_FANOUT_SLOTS) info.SlotsInEpoch) with
      | error e => rw [h2] at hok; exact absurd hok (by simp)
      | ok slotLeaders =>
        rw [h2] at hok
        cases h3 : conn.getClusterNodes with
        | error e => rw [h3] at hok; exact absurd hok (by simp)
        | ok nodes =>
          rw [h3] at hok
          dsimp only at hok
          injection hok with hok'
          subst hok'
          refine ⟨hlen _ _ _ h2, rfl, ?_⟩
          intro h1len hbound
          exact lastSlot_mod_of_bounds cache.FirstSlot slotLeaders.length h1len hbound
  · intro e h1
    unfold LeaderTPUCache.Load
    rw [h1]
  · intro e info h1 h2
    unfold LeaderTPUCache.Load FetchSlotLeaders
    rw [h1]
    dsimp only
    rw [h2]
  · intro e info ll h1 h2 h3
    unfold LeaderTPUCache.Load FetchSlotLeaders FetchClusterTPUSockets
    rw [h1]
    dsimp only
    rw [h2, h3]

/-- Witness for `load_window_length_and_error_propagation` with a
concrete all-succeeding collaborator. -/
theorem load_window_length_and_error_propagation_witness :
    ∃ c, LeaderTPUCache.Load LeaderTPUCache.empty rpcAnchorExample 100 = .ok c ∧
      c.Leaders.length = min (2 * MAX_FANOUT_SLOTS) c.SlotsInEpoch ∧
      c.FirstSlot = LeaderTPUCache.empty.FirstSlot := by
  have hlen : ∀ s c l, rpcAnchorExample.getSlotLeaders s c = .ok l → l.length = c := by
    intro s c l hl
    injection hl with h'
    rw [← h']
    exact List.length_replicate c "L1"
  obtain ⟨h1, -, -, -⟩ :=
    load_window_length_and_error_propagation LeaderTPUCache.empty rpcAnchorExample 100 hlen
  have hok : LeaderTPUCache.Load LeaderTPUCache.empty rpcAnchorExample 100 =
      .ok { LeaderTPUMap := fun _ => "", FirstSlot := 0, SlotsInEpoch := 5,
            Leaders := List.replicate 5 "L1" } := rfl
  obtain ⟨hA, hB, -⟩ := h1 _ hok
  exact ⟨_, hok, hA, hB⟩

/-!
Fan-out configuration clamp.
-/

/-- Counterexample for claim C5: a zero (unset) configured fan-out is
clamped to 1, not replaced by `DEFAULT_FANOUT_SLOTS = 12`; the default
constant is declared but never used. -/
theorem computeFanoutSlots_zero_counterexample :
    computeFanoutSlots ⟨0⟩ = 1 ∧ computeFanoutSlots ⟨0⟩ ≠ DEFAULT_FANOUT_SLOTS := by
  decide

/-- Claim C5 (amended): the effective fan-out is the configured value
clamped to `[1, MAX_FANOUT_SLOTS]`; in particular an unset (zero)
configuration yields 1 — the declared default of 12 is never applied. -/
theorem computeFanoutSlots_clamped (config : TPUClientConfig) :
    1 ≤ computeFanoutSlots config ∧
    computeFanoutSlots config ≤ MAX_FANOUT_SLOTS ∧
    (1 ≤ config.FanoutSlots → config.FanoutSlots ≤ MAX_FANOUT_SLOTS →
      computeFanoutSlots config = config.FanoutSlots) ∧
    computeFanoutSlots ⟨0⟩ = 1 := by
  unfold computeFanoutSlots MAX_FANOUT_SLOTS
  refine ⟨?_, ?_, ?_, by decide⟩
  · omega
  · omega
  · intro ha hb
    omega

/-- Witness for `computeFanoutSlots_clamped`: a configured fan-out of 50
is already in range and is kept. -/
theorem computeFanoutSlots_clamped_witness :
    computeFanoutSlots ⟨50⟩ = 50 :=
  (computeFanoutSlots_clamped ⟨50⟩).2.2.1 (by decide) (by decide)

/-!
Fan-out sender lemmas.
-/

/-- `getLastD` distributes over append: the last element of the combined
error log is the last of the second part, falling back to the last of the
first. -/
theorem getLastD_append_eq (l1 l2 : List String) :
    ∀ d, (l1 ++ l2).getLastD d = l2.getLastD (l1.getLastD d) := by
  induction l1 with
  | nil => intro d; rfl
  | cons a l1 ih =>
    intro d
    rw [List.cons_append, List.getLastD_cons, ih, List.getLastD_cons]

/-- The dial-retry loop inspects only attempt outcomes 0 through 3: two
destinations whose first four dial outcomes agree behave identically, so
at most 3 extra attempts follow a failure. -/
theorem tryDial_attempts_bounded (b1 b2 : AddrBehavior) (e : String)
    (h : ∀ k, k ≤ 3 → b1.dial k = b2.dial k) :
    tryDial b1 e = tryDial b2 e := by
  unfold tryDial
  rw [h 0 (by omega), h 1 (by omega), h 2 (by omega), h 3 (by omega)]

/-- Whether the dial-retry loop connects does not depend on the threaded
`lastError`. -/
theorem tryDial_fst_eq_connects (b : AddrBehavior) (e : String) :
    (tryDial b e).1 = connects b := by
  unfold connects tryDial
  cases b.dial 0 <;> cases b.dial 1 <;> cases b.dial 2 <;> cases b.dial 3 <;> rfl

/-- The `lastError` left by the dial-retry loop is the last recorded dial
error, or the threaded value when no attempt failed. -/
theorem tryDial_snd_eq_getLastD (b : AddrBehavior) (e : String) :
    (tryDial b e).2 = (dialErrors b).getLastD e := by
  unfold tryDial dialErrors
  cases b.dial 0 <;> cases b.dial 1 <;> cases b.dial 2 <;> cases b.dial 3 <;> rfl

/-- The write loop adds the number of successful writes to the success
counter and leaves as `lastError` the last write error, or the threaded
value when every write succeeded. -/
theorem writeLoop_spec (b : AddrBehavior) (amount : Nat) (s : Nat) (e : String) :
    writeLoop b amount (s, e) =
      (s + successfulWrites b amount, (writeErrors b amount).getLastD e) := by
  unfold writeLoop successfulWrites writeErrors
  generalize List.range amount = L
  induction L generalizing s e with
  | nil => rfl
  | cons i L ih =>
    rw [List.foldl_cons, List.countP_cons, List.filterMap_cons]
    cases hw : b.write i with
    | none =>
      dsimp only
      rw [ih (s + 1) e]
      have hp : (if (none : Option String).isNone = true then 1 else 0) = 1 := rfl
      rw [hp]
      refine congrArg₂ Prod.mk ?_ rfl
      omega
    | some err =>
      dsimp only
      rw [ih s err]
      have hp : (if (some err : Option String).isNone = true then 1 else 0) = 0 := rfl
      rw [hp, List.getLastD_cons]
      refine congrArg₂ Prod.mk ?_ rfl
      omega

/-- One destination step of the sender fold: on connection it adds that
destination's successful writes and appends its dial and write errors to
the log; otherwise it only appends the dial errors. -/
theorem sendStep_spec (amount : Nat) (b : AddrBehavior) (s : Nat) (e : String) :
    (let dialResult := tryDial b e
     if dialResult.1 then writeLoop b amount (s, dialResult.2)
     else (s, dialResult.2)) =
      (s + (if connects b then successfulWrites b amount else 0),
       ((dialErrors b ++ if connects b then writeErrors b amount else []).getLastD e)) := by
  dsimp only
  rw [tryDial_fst_eq_connects, tryDial_snd_eq_getLastD]
  cases hcon : connects b with
  | true =>
    rw [if_pos rfl, if_pos rfl, if_pos rfl, writeLoop_spec, getLastD_append_eq]
  | false =>
    rw [if_neg (by simp), if_neg (by simp), if_neg (by simp), List.append_nil]
    exact congrArg₂ Prod.mk (by omega) rfl

/-- The sender fold over all destinations accumulates the total number of
successful writes and the last recorded error text. -/
theorem sendFold_spec (amount : Nat) :
    ∀ (addrs : List AddrBehavior) (s : Nat) (e : String),
      addrs.foldl (fun acc b =>
          let dialResult := tryDial b acc.2
          if dialResult.1 then writeLoop b amount (acc.1, dialResult.2)
          else (acc.1, dialResult.2)) (s, e) =
        (s + totalSuccesses addrs amount, (recordedErrors addrs amount).getLastD e) := by
  intro addrs
  induction addrs with
  | nil =>
    intro s e
    simp [totalSuccesses, recordedErrors]
  | cons b addrs ih =>
    intro s e
    rw [List.foldl_cons]
    have hstep := sendStep_spec amount b s e
    dsimp only at hstep ⊢
    rw [hstep, ih]
    unfold totalSuccesses recordedErrors
    rw [List.map_cons, List.sum_cons, List.flatMap_cons]
    simp only [getLastD_append_eq]
    refine congrArg₂ Prod.mk ?_ rfl
    omega

/-- The total success counter is positive exactly when some destination
connects and has a successful write among the first `amount`. -/
theorem totalSuccesses_pos_iff (addrs : List AddrBehavior) (amount : Nat) :
    0 < totalSuccesses addrs amount ↔
      ∃ b ∈ addrs, connects b = true ∧ ∃ i < amount, b.write i = none := by
  induction addrs with
  | nil => simp [totalSuccesses]
  | cons b addrs ih =>
    unfold totalSuccesses at ih ⊢
    rw [List.map_cons, List.sum_cons]
    constructor
    · intro h
      rcases Nat.lt_or_ge 0 ((addrs.map
          (fun b => if connects b then successfulWrites b amount else 0)).sum) with h2 | h2
      · obtain ⟨b2, hb2, hrest⟩ := ih.mp h2
        exact ⟨b2, List.mem_cons_of_mem _ hb2, hrest⟩
      · have h0 : (addrs.map
            (fun b => if connects b then successfulWrites b amount else 0)).sum = 0 := by
          omega
        rw [h0, Nat.add_zero] at h
        cases hcon : connects b with
        | false => rw [hcon] at h; simp at h
        | true =>
          rw [hcon, if_pos rfl] at h
          unfold successfulWrites at h
          obtain ⟨i, hi, hp⟩ := List.countP_pos_iff.mp h
          refine ⟨b, List.mem_cons_self b addrs, hcon, i, List.mem_range.mp hi, ?_⟩
          exact Option.isNone_iff_eq_none.mp hp
    · rintro ⟨b2, hb2, hcon, i, hi, hw⟩
      rcases List.mem_cons.mp hb2 with rfl | hb2
      · have hpos : 0 < successfulWrites b2 amount := by
          unfold successfulWrites
          refine List.countP_pos_iff.mpr ⟨i, List.mem_range.mpr hi, ?_⟩
          rw [hw]; rfl
        rw [hcon, if_pos rfl]
        omega
      · have := ih.mpr ⟨b2, hb2, hcon, i, hi, hw⟩
        omega

/-- Claim C4: the dial loop for a destination makes at most 3 extra
attempts after a failure (its outcome only depends on attempts 0-3); a
destination whose dials all fail is skipped while later destinations are
still processed; the send succeeds exactly when at least one write
succeeded on some connected destination, and otherwise fails carrying the
last recorded error text. -/
theorem sendRawTransaction_aggregate (addrs : List AddrBehavior) (amount : Nat) :
    (∀ b1 b2 e, (∀ k, k ≤ 3 → b1.dial k = b2.dial k) → tryDial b1 e = tryDial b2 e) ∧
    (SendRawTransaction addrs amount = .ok () ↔
      ∃ b ∈ addrs, connects b = true ∧ ∃ i < amount, b.write i = none) ∧
    (∀ e, SendRawTransaction addrs amount = .error e →
      e = (recordedErrors addrs amount).getLastD "") := by
  refine ⟨tryDial_attempts_bounded, ?_, ?_⟩
  · unfold SendRawTransaction
    rw [sendFold_spec]
    dsimp only
    rw [Nat.zero_add]
    by_cases h0 : totalSuccesses addrs amount = 0
    · rw [if_pos h0]
      constructor
      · intro h; cases h
      · intro hex
        have := (totalSuccesses_pos_iff addrs amount).mpr hex
        omega
    · rw [if_neg h0]
      constructor
      · intro _
        exact (totalSuccesses_pos_iff addrs amount).mp (Nat.pos_of_ne_zero h0)
      · intro _; rfl
  · intro e h
    unfold SendRawTransaction at h
    rw [sendFold_spec] at h
    dsimp only at h
    rw [Nat.zero_add] at h
    by_cases h0 : totalSuccesses addrs amount = 0
    · rw [if_pos h0] at h
      injection h with h'
      exact h'.symm
    · rw [if_neg h0] at h
      cases h

/-- Witness for `sendRawTransaction_aggregate`: one destination that
connects and accepts its single write makes the send succeed. -/
theorem sendRawTransaction_aggregate_witness :
    SendRawTransaction [addrAllOk] 1 = .ok () :=
  (sendRawTransaction_aggregate [addrAllOk] 1).2.1.mpr
    ⟨addrAllOk, by simp, rfl, 0, by omega, rfl⟩

/-- Counterexample for claim C9: with repeat count 0 and a destination
whose first dial attempt fails with text `dial refused` before its retry
succeeds, no write is ever attempted yet the dial failure was recorded,
so the returned error text is `dial refused`, not the empty string. -/
theorem sendRaw_zero_repeat_counterexample :
    SendRawTransaction [addrRetryThenOk] 0 = .error "dial refused" ∧
    "dial refused" ≠ "" :=
  ⟨rfl, by decide⟩

/-- If every destination's first dial attempt succeeds, a send with
repeat count 0 records no error at all. -/
theorem recordedErrors_nil_of_first_dial_ok (l : List AddrBehavior)
    (h : ∀ b ∈ l, b.dial 0 = none) : recordedErrors l 0 = [] := by
  induction l with
  | nil => rfl
  | cons b rest ih =>
    unfold recordedErrors
    rw [List.flatMap_cons]
    have hd : dialErrors b = [] := by
      unfold dialErrors
      rw [h b (List.mem_cons_self b rest)]
    have he : writeErrors b 0 = [] := rfl
    have hrest : recordedErrors rest 0 = [] :=
      ih (fun b2 hb2 => h b2 (List.mem_cons_of_mem _ hb2))
    unfold recordedErrors at hrest
    rw [hd, he, hrest]
    simp

/-- Claim C9 (amended): with an empty resolved address list, `sendRaw`
fails with an empty error text (success counter 0 and nothing recorded);
with repeat count 0 it also fails, and the text is empty provided no dial
attempt failed — a recorded dial failure, even one followed by a
successful retry, becomes the reported text instead. -/
theorem sendRaw_vacuous_error_text (addrs : List AddrBehavior) (amount : Nat) :
    SendRawTransaction [] amount = .error "" ∧
    ((∀ b ∈ addrs, b.dial 0 = none) → SendRawTransaction addrs 0 = .error "") := by
  constructor
  · rfl
  · intro hall
    unfold SendRawTransaction
    rw [sendFold_spec]
    dsimp only
    have h1 : totalSuccesses addrs 0 = 0 := by
      unfold totalSuccesses successfulWrites
      rw [List.sum_eq_zero_iff]
      intro x hx
      obtain ⟨b, hb, rfl⟩ := List.mem_map.mp hx
      simp
    rw [h1, recordedErrors_nil_of_first_dial_ok addrs hall]
    rfl

/-- Witness for `sendRaw_vacuous_error_text`: one destination whose dial
succeeds immediately, repeat count 0. -/
theorem sendRaw_vacuous_error_text_witness :
    SendRawTransaction [addrAllOk] 0 = .error "" :=
  (sendRaw_vacuous_error_text [addrAllOk] 0).2
    (by intro b hb; rw [List.mem_singleton] at hb; rw [hb]; rfl)
